import Mathlib

/-!
Verification of the freight/distance anomaly-detection core of the
nomad-commerce-analytics repository.

The embedding below models, in exact rational (and, for the geometry, real)
arithmetic:

* `ols_fit` from `app/utils/insights.py` (NaN masking, size guard, closed-form
  least squares, `r2`, residual sigma with `ddof=2`);
* the inline analysis pipeline of `app/pages/03_Freight_and_Distance.py`
  (SQL row filters, the degenerate-variance guard, the inline OLS fit, the
  z-standardizer, the outlier classifier and the ranked outlier table);
* the freight mart construction of `app/utils/db.py` (`stg_geolocation`,
  the coordinate join, the haversine `distance_km` CASE, `order_aggs` and
  `order_freight_pct`, and the page's order-granularity aggregation).

Float values are modelled as exact rationals; a non-finite float (NaN or
infinity) is modelled as `none` in an `Option ℚ`, matching the `np.isfinite`
mask and SQL NULL semantics.
-/

/-- A float value as consumed by `ols_fit`: `some q` is a finite value,
`none` is a non-finite one (NaN or infinity), which `np.isfinite` masks out. -/
abbrev FVal := Option ℚ

/-- Pairs `(x i, y i)` where both entries are finite: the rows kept by the
mask `np.isfinite(x) & np.isfinite(y)` in `ols_fit` (insights.py line 31),
for parallel input sequences. -/
def finitePairs : List FVal → List FVal → List (ℚ × ℚ)
  | some a :: xs, some b :: ys => (a, b) :: finitePairs xs ys
  | _ :: xs, _ :: ys => finitePairs xs ys
  | _, _ => []

/-- Arithmetic mean of a list of rationals (`np.mean`); `0` on the empty list
(the code never takes a mean of an empty array on the paths modelled here). -/
def mean (l : List ℚ) : ℚ := l.sum / (l.length : ℚ)

/-- Centered second moment of `xs`: `Σ (x i - mean xs)^2`. -/
def sqDev (xs : List ℚ) : ℚ := (xs.map (fun v => (v - mean xs) ^ 2)).sum

/-- Centered cross moment `Σ (x i - mean xs) * (y i - mean ys)`. -/
def crossDev (xs ys : List ℚ) : ℚ :=
  ((xs.zip ys).map (fun p => (p.1 - mean xs) * (p.2 - mean ys))).sum

/-- Exact value of `np.linalg.lstsq` on the design matrix `[1 x]`
(insights.py line 38, page line 99): when `x` is not constant the design
matrix has full column rank and the least-squares solution is the classic
closed form; when `x` is constant (`Σ (x i - mean x)^2 = 0`) the matrix is
rank deficient and `lstsq` returns the minimum-norm least-squares solution,
which for the constant column value `c = mean xs` is
`(ȳ / (1 + c^2)) * (1, c)`. Returns `(intercept, slope)`. -/
def lstsqBeta (xs ys : List ℚ) : ℚ × ℚ :=
  if sqDev xs ≠ 0 then
    let b := crossDev xs ys / sqDev xs
    (mean ys - b * mean xs, b)
  else
    let c := mean xs
    let t := mean ys / (1 + c ^ 2)
    (t, t * c)

/-- Total sum of squares `SS_tot = Σ (y i - ȳ)^2` (insights.py line 43). -/
def ssTot (ys : List ℚ) : ℚ := (ys.map (fun v => (v - mean ys) ^ 2)).sum

/-- Residual sum of squares `SS_res = Σ r i ^ 2` (insights.py line 42). -/
def ssRes (resid : List ℚ) : ℚ := (resid.map (fun r => r ^ 2)).sum

/-- Square of `np.std(resid, ddof=2)`: `Σ (r i - mean r)^2 / (n - 2)`.
The code stores the float square root of this quantity; its sign information
(`sigma > 0` iff `sigmaSq > 0`) is all the guarded division uses. -/
def sigmaSqOf (resid : List ℚ) : ℚ :=
  (resid.map (fun r => (r - mean resid) ^ 2)).sum / ((resid.length : ℚ) - 2)

/-- The only failure of `ols_fit`: the `ValueError` raised on line 35 of
insights.py when fewer than 3 finite points remain. -/
inductive OLSError
  | insufficientData
deriving Repr, DecidableEq

/-- Result record of `ols_fit` (the `OLSResult` dataclass), with the residual
standard deviation carried as its square `sigmaSq` (exact rational); the float
`sigma` of the code is `√sigmaSq`. -/
structure OLSResult where
  beta : ℚ × ℚ
  y_hat : List ℚ
  resid : List ℚ
  r2 : ℚ
  sigmaSq : ℚ
deriving Repr, DecidableEq

/-- Embedding of `ols_fit` from `app/utils/insights.py` lines 21-48:
mask non-finite rows, require at least 3 points, solve least squares on
`[1 x]`, compute fitted values, residuals, `r2` (with the
`if ss_tot > 0 ... else 0.0` fallback of line 44) and the squared residual
sigma (`ddof=2`). -/
def ols_fit (x y : List FVal) : Except OLSError OLSResult :=
  let p := finitePairs x y
  let xs := p.map Prod.fst
  let ys := p.map Prod.snd
  if xs.length < 3 then
    .error .insufficientData
  else
    let ab := lstsqBeta xs ys
    let y_hat := xs.map (fun v => ab.1 + ab.2 * v)
    let resid := (ys.zip y_hat).map (fun q => q.1 - q.2)
    let r2 := if ssTot ys > 0 then 1 - ssRes resid / ssTot ys else 0
    .ok { beta := ab, y_hat := y_hat, resid := resid, r2 := r2,
          sigmaSq := sigmaSqOf resid }

/-- A row of `fct_freight` as consumed by the line-granularity query of
`03_Freight_and_Distance.py` (lines 43-55); `none` models SQL NULL. -/
structure FreightRow where
  entity_id : ℕ
  distance_km : Option ℚ
  freight_pct : Option ℚ
  line_gross : Option ℚ
deriving Repr, DecidableEq

/-- The WHERE predicate of the line-granularity query (page lines 49-53):
`distance_km IS NOT NULL AND distance_km BETWEEN 0 AND max_km AND
freight_pct_line IS NOT NULL AND freight_pct_line BETWEEN 0 AND max_pct AND
line_gross > 0`; a NULL in any tested column fails the predicate. -/
def lineKeep (maxKm maxPct : ℚ) (r : FreightRow) : Bool :=
  match r.distance_km, r.freight_pct, r.line_gross with
  | some d, some f, some g =>
      decide (0 ≤ d) && decide (d ≤ maxKm) && decide (0 ≤ f) &&
      decide (f ≤ maxPct) && decide (0 < g)
  | _, _, _ => false

/-- The filtered frame `df` of the line-granularity query. -/
def lineFilter (maxKm maxPct : ℚ) (rows : List FreightRow) : List FreightRow :=
  rows.filter (lineKeep maxKm maxPct)

/-- Column extraction `df["distance_km"]` over the filtered frame; the SQL
filter guarantees every kept row has a non-NULL distance, so skipping NULLs
is the identity there. -/
def colDist : List FreightRow → List ℚ
  | [] => []
  | r :: t =>
      match r.distance_km with
      | some d => d :: colDist t
      | none => colDist t

/-- Column extraction `df["freight_pct"]` over the filtered frame. -/
def colFreight : List FreightRow → List ℚ
  | [] => []
  | r :: t =>
      match r.freight_pct with
      | some f => f :: colFreight t
      | none => colFreight t

/-- Whether `np.nanstd` of a NaN-free list is zero: the standard deviation of
a list of exact values vanishes iff the centered second moment does
(page line 93 guard). -/
def stdZero (l : List ℚ) : Bool := decide (sqDev l = 0)

/-- The two early exits of the page pipeline: `st.stop()` after the
"No rows after filters" message (line 85) and after the "Not enough
variation" message (line 95). -/
inductive PageStop
  | noRows
  | noVariation
deriving Repr, DecidableEq

/-- The model quantities the page computes inline (lines 98-104). The
residual sigma is carried as its exact square; it is `none` when `n ≤ 2`,
where `np.std(resid, ddof=2)` divides by `n - 2 ≤ 0` and (residuals being
exactly zero for a two-point full-rank fit) produces NaN. -/
structure PageFit where
  beta : ℚ × ℚ
  y_hat : List ℚ
  resid : List ℚ
  r2 : ℚ
  sigmaSq : Option ℚ
deriving Repr, DecidableEq

/-- Inline OLS fit of the page (lines 98-104): least squares on `[1 x]`,
fitted values, residuals, unguarded `r2 = 1 - SS_res / SS_tot` (line 102)
and squared residual sigma with `ddof=2` (line 103). -/
def pageFitRaw (xs ys : List ℚ) : PageFit :=
  let ab := lstsqBeta xs ys
  let y_hat := xs.map (fun v => ab.1 + ab.2 * v)
  let resid := (ys.zip y_hat).map (fun q => q.1 - q.2)
  { beta := ab, y_hat := y_hat, resid := resid,
    r2 := 1 - ssRes resid / ssTot ys,
    sigmaSq := if xs.length ≤ 2 then none else some (sigmaSqOf resid) }

/-- The line-granularity analysis pipeline of `03_Freight_and_Distance.py`:
SQL filter (lines 43-55), empty-frame stop (lines 83-85), degenerate-variance
guard `np.nanstd(x) == 0 or np.nanstd(y) == 0` (lines 92-95), then the
inline OLS fit. -/
def pageAnalyze (maxKm maxPct : ℚ) (rows : List FreightRow) :
    Except PageStop PageFit :=
  let df := lineFilter maxKm maxPct rows
  if df.isEmpty then .error .noRows
  else if stdZero (colDist df) || stdZero (colFreight df) then
    .error .noVariation
  else .ok (pageFitRaw (colDist df) (colFreight df))

/-- Denominator of the standardized residual: `sigma if sigma > 0 else 1.0`
(insights.py line 46, page line 104). -/
def zDenom (sigma : ℚ) : ℚ := if 0 < sigma then sigma else 1

/-- The standardizer `z = residuals / (sigma if sigma > 0 else 1.0)`
applied elementwise (insights.py line 46, page line 104). -/
def standardize (resid : List ℚ) (sigma : ℚ) : List ℚ :=
  resid.map (fun r => r / zDenom sigma)

/-- Outlier classification `np.abs(z) > zcut` of page line 110. -/
def isOutlier (zcut z : ℚ) : Bool := decide (zcut < |z|)

/-- Number of flagged rows for a given threshold (page line 117 KPI). -/
def countOutliers (zs : List ℚ) (zcut : ℚ) : ℕ :=
  (zs.filter (fun z => isOutlier zcut z)).length

/-- A row of `df_model` as the ranking stage uses it: its entity id and its
standardized residual (page lines 106-110 and 166-175). -/
structure ModelRow where
  entity_id : ℕ
  z : ℚ
deriving Repr, DecidableEq

/-- The outlier table `df_out` of page lines 167-175: keep flagged rows,
sort by `abs_z` descending (pandas `sort_values`, which performs no further
tie-break and leaves tied rows in frame order), take the first `top_n`. -/
def dfOut (zcut : ℚ) (rows : List ModelRow) (topn : ℕ) : List ModelRow :=
  (List.insertionSort (fun a b => |b.z| ≤ |a.z|)
    (rows.filter (fun r => isOutlier zcut r.z))).take topn

/-- Modelled from the spec sentence of the ranking claim (for comparison with
`dfOut`): sort flagged rows by `|z|` descending with ties broken by
`entity_id` ascending, then truncate to `top_n`. -/
def specOutlierTable (zcut : ℚ) (rows : List ModelRow) (topn : ℕ) :
    List ModelRow :=
  (List.insertionSort
    (fun a b => |b.z| < |a.z| ∨ (|a.z| = |b.z| ∧ a.entity_id ≤ b.entity_id))
    (rows.filter (fun r => isOutlier zcut r.z))).take topn

/-- Degrees-to-radians conversion, the SQL `radians()` function. -/
noncomputable def radians (x : ℝ) : ℝ := x * Real.pi / 180

/-- The haversine expression of the `with_dist` CTE in `app/utils/db.py`
lines 348-352, with customer point `(clat, clng)` and seller point
`(slat, slng)` in decimal degrees and Earth radius 6371.0 km:
`2 * asin(sqrt(sin²(radians((clat-slat)/2)) + cos(radians(slat)) *
cos(radians(clat)) * sin²(radians((clng-slng)/2)))) * 6371.0`. -/
noncomputable def haversine (clat clng slat slng : ℝ) : ℝ :=
  2 * Real.arcsin (Real.sqrt
    ((Real.sin (radians ((clat - slat) / 2))) ^ 2 +
      Real.cos (radians slat) * Real.cos (radians clat) *
        (Real.sin (radians ((clng - slng) / 2))) ^ 2)) * 6371

/-- Coordinates of one line item after the `coords` CTE: the customer and
seller latitude/longitude columns, each NULL (`none`) when the LEFT JOIN to
the geo table found no row. -/
structure CoordRow where
  cust_lat : Option ℝ
  cust_lng : Option ℝ
  seller_lat : Option ℝ
  seller_lng : Option ℝ

/-- The `distance_km` CASE of `with_dist` (db.py lines 345-353): NULL when
any of the four coordinates is NULL, otherwise the haversine distance. -/
noncomputable def distanceKm (r : CoordRow) : Option ℝ :=
  match r.cust_lat, r.cust_lng, r.seller_lat, r.seller_lng with
  | some clat, some clng, some slat, some slng =>
      some (haversine clat clng slat slng)
  | _, _, _, _ => none

/-- A row of `raw_geolocation` / `stg_geolocation` (db.py lines 247-257),
with the opaque string columns modelled as naturals. The source column
`geolocation_zip_code_prefix` is the field `zip`. -/
structure GeoRow where
  zip : ℕ
  city : ℕ
  state : ℕ
  lat : ℚ
  lng : ℚ
deriving Repr, DecidableEq

/-- The `stg_geolocation` view (db.py lines 247-257): `GROUP BY 1,2,3,4,5`
over the five selected columns, i.e. the distinct rows of the raw table. -/
def stgGeolocation (raw : List GeoRow) : List GeoRow := raw.dedup

/-- One endpoint of the coords LEFT JOIN (db.py lines 340-341,
`LEFT JOIN geos g ON zip = g.zip_prefix`): a NULL key matches nothing and a
left join with no match keeps the line with NULL geo columns; with `k ≥ 1`
matching geo rows the line is repeated once per match. -/
def joinGeo (zip : Option ℕ) (geos : List GeoRow) : List (Option GeoRow) :=
  match zip with
  | none => [none]
  | some z =>
      let ms := geos.filter (fun g => g.zip == z)
      if ms.isEmpty then [none] else ms.map some

/-- The two successive LEFT JOINs of the `coords` CTE for a single line item:
one output row per combination of customer-side and seller-side match. -/
def coordsRows (custZip sellerZip : Option ℕ) (geos : List GeoRow) :
    List (Option GeoRow × Option GeoRow) :=
  (joinGeo custZip geos).flatMap (fun c =>
    (joinGeo sellerZip geos).map (fun s => (c, s)))

/-- A delivered line item as seen by the `line_metrics` CTE of `fct_freight`
(db.py lines 356-362): ids, freight value, merchandise value and the derived
distance (already computed by `with_dist`, possibly NULL). -/
structure LineItem where
  order_item_id : ℕ
  order_id : ℕ
  freight_value : ℚ
  line_gross : ℚ
  distance_km : Option ℚ
deriving Repr, DecidableEq

/-- The `order_freight_total` of `order_aggs` (db.py lines 363-366):
sum of `freight_value` over all `line_metrics` rows of the order. -/
def orderFreightTotal (lines : List LineItem) (oid : ℕ) : ℚ :=
  ((lines.filter (fun li => li.order_id == oid)).map
    (fun li => li.freight_value)).sum

/-- The `order_gmv` of `order_aggs` (db.py lines 363-366): sum of
`line_gross` over all `line_metrics` rows of the order. -/
def orderGmv (lines : List LineItem) (oid : ℕ) : ℚ :=
  ((lines.filter (fun li => li.order_id == oid)).map
    (fun li => li.line_gross)).sum

/-- The `order_freight_pct` column of `fct_freight` (db.py line 369):
`order_freight_total / order_gmv` when `order_gmv > 0`, else NULL. -/
def orderFreightPct (lines : List LineItem) (oid : ℕ) : Option ℚ :=
  if 0 < orderGmv lines oid then
    some (orderFreightTotal lines oid / orderGmv lines oid)
  else none

/-- A row of the final `fct_freight` SELECT (db.py lines 367-371) restricted
to the columns the order-granularity page query reads. -/
structure FctRow where
  order_item_id : ℕ
  order_id : ℕ
  distance_km : Option ℚ
  order_freight_pct : Option ℚ
deriving Repr, DecidableEq

/-- Construction of `fct_freight` from the `line_metrics` rows (db.py lines
367-371): each line item carries its order's `order_freight_pct`. -/
def fctFreight (lines : List LineItem) : List FctRow :=
  lines.map (fun li =>
    { order_item_id := li.order_item_id, order_id := li.order_id,
      distance_km := li.distance_km,
      order_freight_pct := orderFreightPct lines li.order_id })

/-- A row of the `per_line` CTE of the order-granularity page query
(page lines 60-67): order id, non-NULL distance and non-NULL order-level
freight percentage, both within the caller's bounds. -/
structure PerLine where
  order_id : ℕ
  distance_km : ℚ
  freight_pct : ℚ
deriving Repr, DecidableEq

/-- The WHERE test of the `per_line` CTE applied to one `fct_freight` row:
keep the row iff `distance_km` and `order_freight_pct` are non-NULL and lie
within `[0, max_km]` and `[0, max_pct]` respectively. -/
def perRow (maxKm maxPct : ℚ) (r : FctRow) : Option PerLine :=
  match r.distance_km, r.order_freight_pct with
  | some d, some f =>
      if 0 ≤ d ∧ d ≤ maxKm ∧ 0 ≤ f ∧ f ≤ maxPct then
        some { order_id := r.order_id, distance_km := d, freight_pct := f }
      else none
  | _, _ => none

/-- The `per_line` CTE (page lines 60-67) over the whole table. -/
def perLine (maxKm maxPct : ℚ) : List FctRow → List PerLine
  | [] => []
  | r :: t =>
      match perRow maxKm maxPct r with
      | some p => p :: perLine maxKm maxPct t
      | none => perLine maxKm maxPct t

/-- DuckDB `median` over a DOUBLE column: the middle element of the sorted
values for an odd count, the average of the two middle elements for an even
count (`0` on the empty list, which no nonempty group produces). -/
def median (l : List ℚ) : ℚ :=
  let s := List.insertionSort (fun a b : ℚ => a ≤ b) l
  let n := s.length
  if n = 0 then 0
  else if n % 2 = 1 then s.getD (n / 2) 0
  else (s.getD (n / 2 - 1) 0 + s.getD (n / 2) 0) / 2

/-- DuckDB `max` over a nonempty group of DOUBLEs (`0` on the empty list,
which no nonempty group produces). -/
def maxAgg : List ℚ → ℚ
  | [] => 0
  | a :: t => t.foldl max a

/-- An output row of the order-granularity query (page lines 68-79). -/
structure OrderRow where
  order_id : ℕ
  distance_km : ℚ
  freight_pct : ℚ
deriving Repr, DecidableEq

/-- The rows of `per_line` belonging to one order id. -/
def groupRows (pl : List PerLine) (oid : ℕ) : List PerLine :=
  pl.filter (fun r => r.order_id == oid)

/-- The aggregated row the `agg` CTE produces for one order id:
`median(distance_km)` and `max(freight_pct)` over the order's rows. -/
def aggRow (pl : List PerLine) (oid : ℕ) : OrderRow :=
  { order_id := oid,
    distance_km := median ((groupRows pl oid).map (fun r => r.distance_km)),
    freight_pct := maxAgg ((groupRows pl oid).map (fun r => r.freight_pct)) }

/-- The `agg` CTE of the order-granularity page query (page lines 68-75):
`GROUP BY order_id` with `median(distance_km)` and `max(freight_pct)`,
one row per distinct order id of `per_line`. -/
def orderAgg (pl : List PerLine) : List OrderRow :=
  ((pl.map (fun r => r.order_id)).dedup).map (aggRow pl)

/-! Helper lemmas. -/

/-- A list all of whose elements equal `c` sums to `length * c`. -/
lemma sum_all_eq (l : List ℚ) (c : ℚ) (h : ∀ a ∈ l, a = c) :
    l.sum = (l.length : ℚ) * c := by
  rw [List.sum_eq_card_nsmul l c h, nsmul_eq_mul]

/-- The mean of a nonempty constant list is that constant. -/
lemma mean_all_eq (l : List ℚ) (c : ℚ) (hne : l ≠ []) (h : ∀ a ∈ l, a = c) :
    mean l = c := by
  have hlen : (l.length : ℚ) ≠ 0 := by
    have : l.length ≠ 0 := fun h0 => hne (List.length_eq_zero.mp h0)
    exact_mod_cast this
  rw [mean, sum_all_eq l c h, mul_comm, mul_div_assoc, div_self hlen, mul_one]

/-- A constant list has zero centered second moment. -/
lemma sqDev_all_eq (l : List ℚ) (c : ℚ) (h : ∀ a ∈ l, a = c) : sqDev l = 0 := by
  rcases eq_or_ne l [] with rfl | hne
  · simp [sqDev]
  · unfold sqDev
    refine List.sum_eq_zero ?_
    intro x hx
    obtain ⟨a, ha, rfl⟩ := List.mem_map.mp hx
    rw [h a ha, mean_all_eq l c hne h, sub_self]
    norm_num

/-- Membership in the extracted distance column. -/
lemma mem_colDist {l : List FreightRow} {a : ℚ} :
    a ∈ colDist l ↔ ∃ r ∈ l, r.distance_km = some a := by
  induction l with
  | nil => simp [colDist]
  | cons r t ih =>
    cases hr : r.distance_km with
    | none => simp [colDist, hr, ih, List.mem_cons]
    | some d =>
      have hcd : colDist (r :: t) = d :: colDist t := by simp [colDist, hr]
      rw [hcd]
      constructor
      · intro hmem
        rcases List.mem_cons.mp hmem with rfl | hmem'
        · exact ⟨r, List.mem_cons_self r t, hr⟩
        · obtain ⟨s, hs, hsa⟩ := ih.mp hmem'
          exact ⟨s, List.mem_cons_of_mem r hs, hsa⟩
      · rintro ⟨s, hs, hsa⟩
        rcases List.mem_cons.mp hs with rfl | hs'
        · rw [hr] at hsa
          exact List.mem_cons.mpr (Or.inl (Option.some.inj hsa).symm)
        · exact List.mem_cons.mpr (Or.inr (ih.mpr ⟨s, hs', hsa⟩))

/-- Membership in the extracted freight column. -/
lemma mem_colFreight {l : List FreightRow} {a : ℚ} :
    a ∈ colFreight l ↔ ∃ r ∈ l, r.freight_pct = some a := by
  induction l with
  | nil => simp [colFreight]
  | cons r t ih =>
    cases hr : r.freight_pct with
    | none => simp [colFreight, hr, ih, List.mem_cons]
    | some f =>
      have hcf : colFreight (r :: t) = f :: colFreight t := by
        simp [colFreight, hr]
      rw [hcf]
      constructor
      · intro hmem
        rcases List.mem_cons.mp hmem with rfl | hmem'
        · exact ⟨r, List.mem_cons_self r t, hr⟩
        · obtain ⟨s, hs, hsa⟩ := ih.mp hmem'
          exact ⟨s, List.mem_cons_of_mem r hs, hsa⟩
      · rintro ⟨s, hs, hsa⟩
        rcases List.mem_cons.mp hs with rfl | hs'
        · rw [hr] at hsa
          exact List.mem_cons.mpr (Or.inl (Option.some.inj hsa).symm)
        · exact List.mem_cons.mpr (Or.inr (ih.mpr ⟨s, hs', hsa⟩))

/-- A stronger filter keeps at most as many elements as a weaker one. -/
lemma length_filter_le_mono {α : Type} (l : List α) (p q : α → Bool)
    (h : ∀ a ∈ l, p a = true → q a = true) :
    (l.filter p).length ≤ (l.filter q).length := by
  induction l with
  | nil => simp
  | cons a t ih =>
    have iht := ih (fun b hb => h b (List.mem_cons_of_mem a hb))
    by_cases hp : p a = true
    · rw [List.filter_cons_of_pos hp, List.filter_cons_of_pos (h a (List.mem_cons_self a t) hp)]
      simpa using iht
    · rw [List.filter_cons_of_neg (by simpa using hp)]
      by_cases hq : q a = true
      · rw [List.filter_cons_of_pos hq]
        exact Nat.le_succ_of_le iht
      · rw [List.filter_cons_of_neg (by simpa using hq)]
        exact iht

/-! Claim theorems. -/

/-- C1: for every input dataset whose present distance values or present
freight-percentage values all coincide (zero variance in x or in y), the
line-granularity analysis of `03_Freight_and_Distance.py` stops with an
error and never returns a fitted model; when any rows survive the SQL
filter, the error is precisely the no-signal stop of the degenerate-variance
guard. -/
theorem pageAnalyze_rejects_zero_variance
    (rows : List FreightRow) (maxKm maxPct : ℚ)
    (h : (∃ c : ℚ, ∀ r ∈ rows, r.distance_km = none ∨ r.distance_km = some c)
       ∨ (∃ c : ℚ, ∀ r ∈ rows, r.freight_pct = none ∨ r.freight_pct = some c)) :
    (∃ e, pageAnalyze maxKm maxPct rows = .error e) ∧
    (lineFilter maxKm maxPct rows ≠ [] →
      pageAnalyze maxKm maxPct rows = .error .noVariation) := by
  have hstd : stdZero (colDist (lineFilter maxKm maxPct rows)) = true ∨
      stdZero (colFreight (lineFilter maxKm maxPct rows)) = true := by
    rcases h with ⟨c, hc⟩ | ⟨c, hc⟩
    · left
      have hall : ∀ a ∈ colDist (lineFilter maxKm maxPct rows), a = c := by
        intro a ha
        obtain ⟨r, hr, hra⟩ := mem_colDist.mp ha
        have hrr : r ∈ rows := (List.mem_filter.mp hr).1
        rcases hc r hrr with hnone | hsome
        · rw [hnone] at hra; cases hra
        · rw [hsome] at hra; exact (Option.some.inj hra).symm
      unfold stdZero
      rw [sqDev_all_eq _ c hall]
      simp
    · right
      have hall : ∀ a ∈ colFreight (lineFilter maxKm maxPct rows), a = c := by
        intro a ha
        obtain ⟨r, hr, hra⟩ := mem_colFreight.mp ha
        have hrr : r ∈ rows := (List.mem_filter.mp hr).1
        rcases hc r hrr with hnone | hsome
        · rw [hnone] at hra; cases hra
        · rw [hsome] at hra; exact (Option.some.inj hra).symm
      unfold stdZero
      rw [sqDev_all_eq _ c hall]
      simp
  constructor
  · by_cases hemp : (lineFilter maxKm maxPct rows).isEmpty
    · exact ⟨.noRows, by simp [pageAnalyze, hemp]⟩
    · refine ⟨.noVariation, ?_⟩
      rcases hstd with hz | hz <;>
        simp [pageAnalyze, Bool.eq_false_iff.mpr hemp, hz]
  · intro hne
    have hemp : (lineFilter maxKm maxPct rows).isEmpty = false := by
      simp [List.isEmpty_iff, hne]
    rcases hstd with hz | hz <;> simp [pageAnalyze, hemp, hz]

/-- Witness for C1: the spec example `x = [5,5,5]` (three rows, all at
distance 5 km) is rejected with the no-signal stop. -/
theorem pageAnalyze_rejects_zero_variance_witness :
    pageAnalyze 1500 7 [⟨1, some 5, some 1, some 100⟩,
      ⟨2, some 5, some 2, some 100⟩, ⟨3, some 5, some 3, some 100⟩] =
      .error .noVariation := by
  refine (pageAnalyze_rejects_zero_variance _ 1500 7 (Or.inl ⟨5, ?_⟩)).2 ?_
  · intro r hr
    fin_cases hr <;> simp
  · decide

/-- C2 counterexample: on `x = [1,2,3]`, `y = [5,5,5]` the target's total sum
of squares is zero, yet `ols_fit` returns a result (with the silently
substituted `r2 = 0.0` of insights.py line 44) instead of raising an error. -/
theorem ols_fit_sstot_zero_counterexample :
    ssTot [5, 5, 5] = 0 ∧
    ols_fit [some 1, some 2, some 3] [some 5, some 5, some 5] =
      .ok { beta := (5, 0), y_hat := [5, 5, 5], resid := [0, 0, 0], r2 := 0,
            sigmaSq := 0 } := by
  constructor
  · norm_num [ssTot, mean]
  · norm_num [ols_fit, finitePairs, lstsqBeta, mean, sqDev, crossDev, ssTot,
      ssRes, sigmaSqOf]

/-- C2 amended: whenever at least 3 finite points remain and the target's
total sum of squares is zero, `ols_fit` succeeds and returns `r2 = 0.0`
silently (the `else 0.0` of insights.py line 44), rather than raising. -/
theorem ols_fit_sstot_zero_r2 (x y : List FVal)
    (h3 : 3 ≤ (finitePairs x y).length)
    (h0 : ssTot ((finitePairs x y).map Prod.snd) = 0) :
    (ols_fit x y).toOption.map OLSResult.r2 = some 0 := by
  have hlen : ¬ (finitePairs x y).length < 3 := Nat.not_lt.mpr h3
  simp [ols_fit, hlen, h0, Except.toOption]

/-- Witness for the amended C2 statement at a 4-point constant target. -/
theorem ols_fit_sstot_zero_r2_witness :
    (ols_fit [some 0, some 1, some 2, some 3]
      [some 7, some 7, some 7, some 7]).toOption.map OLSResult.r2 = some 0 :=
  ols_fit_sstot_zero_r2 _ _ (by decide)
    (by norm_num [finitePairs, ssTot, mean])

/-- C3 counterexample: the inline fit of `03_Freight_and_Distance.py` has no
minimum-size check; on a 2-row frame with distinct distances and freights
(2 points, fewer than 3) the pipeline returns a fitted model instead of an
insufficient-data error. -/
theorem page_inline_fit_two_points_counterexample :
    (lineFilter 1500 7 [⟨1, some 1, some 1, some 5⟩,
      ⟨2, some 2, some 3, some 5⟩]).length = 2 ∧
    (pageAnalyze 1500 7 [⟨1, some 1, some 1, some 5⟩,
      ⟨2, some 2, some 3, some 5⟩]).isOk = true := by
  constructor
  · decide
  · norm_num [pageAnalyze, lineFilter, lineKeep, colDist, colFreight,
      stdZero, sqDev, mean, Except.isOk, Except.toBool]

/-- C3 amended: the `ols_fit` helper raises its insufficient-data error
exactly when fewer than 3 finite points remain after the NaN mask, and every
successful fit has at least 3 points; the page's inline fit (see the
counterexample) performs no such check. -/
theorem ols_fit_requires_three_points (x y : List FVal) :
    (ols_fit x y = .error .insufficientData ↔ (finitePairs x y).length < 3) ∧
    (∀ r : OLSResult, ols_fit x y = .ok r → 3 ≤ (finitePairs x y).length) := by
  by_cases h : (finitePairs x y).length < 3
  · constructor
    · simp [ols_fit, h]
    · intro r hr
      simp [ols_fit, h] at hr
  · constructor
    · simp [ols_fit, h]
    · intro r _
      exact Nat.not_lt.mp h

/-- Witness for the amended C3 statement: two finite points are rejected. -/
theorem ols_fit_requires_three_points_witness :
    ols_fit [some 1, some 2] [some 3, some 4] = .error .insufficientData :=
  (ols_fit_requires_three_points _ _).1.mpr (by decide)

/-- C5 helper: `getD` commutes with an elementwise division. -/
lemma getD_map_div (l : List ℚ) (c : ℚ) :
    ∀ i : ℕ, (l.map (fun r => r / c)).getD i 0 = l.getD i 0 / c := by
  induction l with
  | nil => intro i; simp
  | cons a t ih =>
    intro i
    cases i with
    | zero => simp
    | succ j => simpa using ih j

/-- C4 counterexample: two flagged rows tie on `|z| = 3`; the code's table
(`sort_values` by `abs_z` only, page line 170) keeps them in frame order
(entity 2 before entity 1), while the claimed ordering with its entity-id
ascending tie-break would put entity 1 first; so the produced table is not
the claimed one. -/
theorem dfOut_tiebreak_counterexample :
    dfOut 2 [⟨2, 3⟩, ⟨1, 3⟩] 10 = [⟨2, 3⟩, ⟨1, 3⟩] ∧
    specOutlierTable 2 [⟨2, 3⟩, ⟨1, 3⟩] 10 = [⟨1, 3⟩, ⟨2, 3⟩] ∧
    dfOut 2 [⟨2, 3⟩, ⟨1, 3⟩] 10 ≠ specOutlierTable 2 [⟨2, 3⟩, ⟨1, 3⟩] 10 := by
  refine ⟨?_, ?_, ?_⟩ <;>
    norm_num [dfOut, specOutlierTable, isOutlier, List.insertionSort,
      List.orderedInsert]

/-- C4 amended: for every flagged-outlier set and `top_n`, the reported
table contains only flagged input rows, is sorted by `|z|` descending
(ties stay in frame order, with no entity-id tie-break), and has at most
`top_n` rows. -/
theorem dfOut_ranked (zcut : ℚ) (rows : List ModelRow) (topn : ℕ) :
    (dfOut zcut rows topn).length ≤ topn ∧
    (∀ r ∈ dfOut zcut rows topn, r ∈ rows ∧ isOutlier zcut r.z = true) ∧
    (dfOut zcut rows topn).Sorted (fun a b => |b.z| ≤ |a.z|) := by
  refine ⟨List.length_take_le _ _, ?_, ?_⟩
  · intro r hr
    have hr1 : r ∈ List.insertionSort (fun a b => |b.z| ≤ |a.z|)
        (rows.filter (fun s => isOutlier zcut s.z)) :=
      List.take_subset _ _ hr
    have hr2 : r ∈ rows.filter (fun s => isOutlier zcut s.z) :=
      (List.perm_insertionSort _ _).mem_iff.mp hr1
    exact ⟨(List.mem_filter.mp hr2).1, (List.mem_filter.mp hr2).2⟩
  · haveI : IsTotal ModelRow (fun a b => |b.z| ≤ |a.z|) :=
      ⟨fun a b => le_total _ _⟩
    haveI : IsTrans ModelRow (fun a b => |b.z| ≤ |a.z|) :=
      ⟨fun _ _ _ hab hbc => le_trans hbc hab⟩
    exact (List.sorted_insertionSort _ _).sublist (List.take_sublist _ _)

/-- Witness for the amended C4 statement: membership of a concrete flagged
row in a concrete table. -/
theorem dfOut_ranked_witness :
    (⟨2, 3⟩ : ModelRow) ∈ [(⟨2, 3⟩ : ModelRow), ⟨1, 3⟩] ∧
    isOutlier 2 (⟨2, 3⟩ : ModelRow).z = true :=
  (dfOut_ranked 2 [⟨2, 3⟩, ⟨1, 3⟩] 10).2.1 ⟨2, 3⟩ (by decide)

/-- C5: the standardizer divides by the guard `sigma if sigma > 0 else 1`,
which is always strictly positive, so `z[i] = residual[i] / sigma` when
`sigma > 0` and `z[i] = residual[i] / 1` otherwise, and no division by a
zero residual standard deviation ever occurs. -/
theorem standardize_guarded (resid : List ℚ) (sigma : ℚ) :
    0 < zDenom sigma ∧
    (standardize resid sigma).length = resid.length ∧
    ∀ i : ℕ, (standardize resid sigma).getD i 0 =
      if 0 < sigma then resid.getD i 0 / sigma else resid.getD i 0 / 1 := by
  refine ⟨?_, by simp [standardize], ?_⟩
  · unfold zDenom
    split
    · assumption
    · norm_num
  · intro i
    by_cases h : 0 < sigma
    · simp [standardize, zDenom, h, getD_map_div]
      cases resid[i]? <;> simp
    · simp [standardize, zDenom, h, getD_map_div]

/-- C6: for thresholds `t1 ≤ t2`, every row flagged at `t2` is flagged at
`t1`, and raising the threshold never increases the outlier count. -/
theorem outlier_monotone (zs : List ℚ) (t1 t2 : ℚ) (h : t1 ≤ t2) :
    (∀ z : ℚ, isOutlier t2 z = true → isOutlier t1 z = true) ∧
    countOutliers zs t2 ≤ countOutliers zs t1 := by
  have hpt : ∀ z : ℚ, isOutlier t2 z = true → isOutlier t1 z = true := by
    intro z hz
    simp only [isOutlier, decide_eq_true_eq] at hz ⊢
    exact lt_of_le_of_lt h hz
  exact ⟨hpt, length_filter_le_mono zs _ _ (fun z _ hz => hpt z hz)⟩

/-- Witness for C6 at thresholds 2 ≤ 3 on a concrete z-column. -/
theorem outlier_monotone_witness :
    countOutliers [3, -1, 5] 3 ≤ countOutliers [3, -1, 5] 2 :=
  (outlier_monotone [3, -1, 5] 2 3 (by norm_num)).2

/-- C7 helper: counting rows of a given order id in the aggregate built over
a duplicate-free key list. -/
lemma filter_map_aggRow_count (pl : List PerLine) :
    ∀ ks : List ℕ, ks.Nodup → ∀ oid : ℕ,
      ((ks.map (aggRow pl)).filter (fun r => r.order_id == oid)).length =
        if oid ∈ ks then 1 else 0 := by
  intro ks
  induction ks with
  | nil => intro _ oid; simp
  | cons k t ih =>
    intro hnd oid
    obtain ⟨hk, ht⟩ := List.nodup_cons.mp hnd
    by_cases hko : k = oid
    · subst hko
      rw [List.map_cons, List.filter_cons_of_pos (by simp [aggRow])]
      have hz : ((t.map (aggRow pl)).filter
          (fun r => r.order_id == k)).length = 0 := by
        rw [List.length_eq_zero, List.filter_eq_nil_iff]
        intro r hr
        obtain ⟨j, hj, rfl⟩ := List.mem_map.mp hr
        simp only [aggRow, beq_iff_eq]
        exact fun hjk => hk (hjk ▸ hj)
      simp [hz, List.mem_cons]
    · rw [List.map_cons, List.filter_cons_of_neg (by simp [aggRow, hko])]
      rw [ih ht oid]
      simp [List.mem_cons, Ne.symm hko]

/-- C7 helper: membership in the `per_line` CTE output. -/
lemma mem_perLine {maxKm maxPct : ℚ} {t : List FctRow} {p : PerLine} :
    p ∈ perLine maxKm maxPct t ↔ ∃ r ∈ t, perRow maxKm maxPct r = some p := by
  induction t with
  | nil => simp [perLine]
  | cons r t ih =>
    cases hr : perRow maxKm maxPct r with
    | none => simp [perLine, hr, ih, List.mem_cons]
    | some q =>
      have hpl : perLine maxKm maxPct (r :: t) = q :: perLine maxKm maxPct t := by
        simp [perLine, hr]
      rw [hpl]
      constructor
      · intro hmem
        rcases List.mem_cons.mp hmem with rfl | hmem'
        · exact ⟨r, List.mem_cons_self r t, hr⟩
        · obtain ⟨s, hs, hsp⟩ := ih.mp hmem'
          exact ⟨s, List.mem_cons_of_mem r hs, hsp⟩
      · rintro ⟨s, hs, hsp⟩
        rcases List.mem_cons.mp hs with rfl | hs'
        · rw [hr] at hsp
          exact List.mem_cons.mpr (Or.inl (Option.some.inj hsp).symm)
        · exact List.mem_cons.mpr (Or.inr (ih.mpr ⟨s, hs', hsp⟩))

/-- C7 helper: what a successful `per_line` row test tells us about the
source `fct_freight` row. -/
lemma perRow_inv {maxKm maxPct : ℚ} {r : FctRow} {p : PerLine}
    (h : perRow maxKm maxPct r = some p) :
    p.order_id = r.order_id ∧ r.distance_km = some p.distance_km ∧
    r.order_freight_pct = some p.freight_pct := by
  obtain ⟨iid, oid, dk, ofp⟩ := r
  cases dk with
  | none => simp [perRow] at h
  | some d =>
    cases ofp with
    | none => simp [perRow] at h
    | some f =>
      simp only [perRow] at h
      by_cases hc : 0 ≤ d ∧ d ≤ maxKm ∧ 0 ≤ f ∧ f ≤ maxPct
      · rw [if_pos hc] at h
        rcases Option.some.inj h with rfl
        exact ⟨rfl, rfl, rfl⟩
      · rw [if_neg hc] at h
        cases h

/-- C7: at order granularity, each order id surviving the `per_line` filter
yields exactly one aggregated row; that row's `distance_km` is the median of
the order's included line distances and its `freight_pct` is the maximum of
the order's included per-line order-level freight percentages; and every
per-line freight percentage is the order-level ratio
`order_freight_total / order_gmv` of `order_aggs`. -/
theorem order_granularity (lines : List LineItem) (maxKm maxPct : ℚ) :
    (∀ oid : ℕ,
      ((orderAgg (perLine maxKm maxPct (fctFreight lines))).filter
        (fun r => r.order_id == oid)).length =
        if oid ∈ (perLine maxKm maxPct (fctFreight lines)).map
            (fun r => r.order_id) then 1 else 0) ∧
    (∀ row ∈ orderAgg (perLine maxKm maxPct (fctFreight lines)),
      row.distance_km = median
        ((groupRows (perLine maxKm maxPct (fctFreight lines))
          row.order_id).map (fun r => r.distance_km)) ∧
      row.freight_pct = maxAgg
        ((groupRows (perLine maxKm maxPct (fctFreight lines))
          row.order_id).map (fun r => r.freight_pct))) ∧
    (∀ p ∈ perLine maxKm maxPct (fctFreight lines),
      some p.freight_pct = orderFreightPct lines p.order_id) := by
  refine ⟨?_, ?_, ?_⟩
  · intro oid
    rw [orderAgg, filter_map_aggRow_count _ _ (List.nodup_dedup _) oid]
    simp [List.mem_dedup]
  · intro row hrow
    obtain ⟨oid, _, rfl⟩ := List.mem_map.mp hrow
    exact ⟨rfl, rfl⟩
  · intro p hp
    obtain ⟨r, hr, hrp⟩ := mem_perLine.mp hp
    obtain ⟨li, _, rfl⟩ := List.mem_map.mp hr
    obtain ⟨hid, _, hpct⟩ := perRow_inv hrp
    rw [← hpct]
    simp [hid]

/-- Witness for C7: a two-line order (freight 10+20, merchandise 100+100,
distances 100 and 300 km) produces exactly one aggregate row for its order
id, and its per-line freight percentage is the order ratio 30/200 = 3/20. -/
theorem order_granularity_witness :
    ((orderAgg (perLine 1500 7 (fctFreight
        [⟨1, 9, 10, 100, some 100⟩, ⟨2, 9, 20, 100, some 300⟩]))).filter
      (fun r => r.order_id == 9)).length = 1 ∧
    some ((⟨9, 100, 3/20⟩ : PerLine).freight_pct) =
      orderFreightPct [⟨1, 9, 10, 100, some 100⟩, ⟨2, 9, 20, 100, some 300⟩]
        9 := by
  have h := order_granularity
    [⟨1, 9, 10, 100, some 100⟩, ⟨2, 9, 20, 100, some 300⟩] 1500 7
  constructor
  · rw [h.1 9]
    norm_num [perLine, perRow, fctFreight, orderFreightPct,
      orderFreightTotal, orderGmv]
  · exact h.2.2 ⟨9, 100, 3/20⟩ (by
      norm_num [perLine, perRow, fctFreight, orderFreightPct,
        orderFreightTotal, orderGmv, List.mem_cons])

/-- C8: the haversine distance (Earth radius 6371.0 km) vanishes when both
endpoints coincide, and is symmetric in its two points. -/
theorem haversine_self_and_symm :
    (∀ lat lng : ℝ, haversine lat lng lat lng = 0) ∧
    (∀ lat1 lng1 lat2 lng2 : ℝ,
      haversine lat1 lng1 lat2 lng2 = haversine lat2 lng2 lat1 lng1) := by
  have hsin : ∀ a b : ℝ,
      (Real.sin (radians ((a - b) / 2))) ^ 2 =
      (Real.sin (radians ((b - a) / 2))) ^ 2 := by
    intro a b
    have hneg : radians ((a - b) / 2) = -(radians ((b - a) / 2)) := by
      unfold radians; ring
    rw [hneg, Real.sin_neg, neg_sq]
  constructor
  · intro lat lng
    simp [haversine, radians]
  · intro lat1 lng1 lat2 lng2
    unfold haversine
    rw [hsin lat1 lat2, hsin lng1 lng2,
      mul_comm (Real.cos (radians lat2)) (Real.cos (radians lat1))]

/-- C9: a NULL coordinate on either endpoint makes the derived `distance_km`
NULL (never zero, never imputed), and the line-granularity analysis filter
never keeps a row whose distance is NULL. -/
theorem null_coord_excluded :
    (∀ r : CoordRow,
      (r.cust_lat = none ∨ r.cust_lng = none ∨ r.seller_lat = none ∨
        r.seller_lng = none) → distanceKm r = none) ∧
    (∀ (maxKm maxPct : ℚ) (rows : List FreightRow) (row : FreightRow),
      row ∈ lineFilter maxKm maxPct rows → row.distance_km ≠ none) := by
  constructor
  · intro r h
    obtain ⟨cl, cg, sl, sg⟩ := r
    cases cl <;> cases cg <;> cases sl <;> cases sg <;>
      simp_all [distanceKm]
  · intro maxKm maxPct rows row hrow hnone
    have hkeep := (List.mem_filter.mp hrow).2
    obtain ⟨eid, dk, fp, lg⟩ := row
    cases dk with
    | some d => simp at hnone
    | none => cases fp <;> cases lg <;> simp [lineKeep] at hkeep

/-- Witness for C9: a row with a missing customer latitude gets a NULL
distance, and a concrete filtered row has a non-NULL distance. -/
theorem null_coord_excluded_witness :
    distanceKm ⟨none, some 1, some 2, some 3⟩ = none ∧
    (⟨1, some 5, some 1, some 3⟩ : FreightRow).distance_km ≠ none :=
  ⟨null_coord_excluded.1 ⟨none, some 1, some 2, some 3⟩ (Or.inl rfl),
   null_coord_excluded.2 10 7 [⟨1, some 5, some 1, some 3⟩]
     ⟨1, some 5, some 1, some 3⟩ (by decide)⟩

/-- C10 counterexample: two geo rows share zip 10 with different
coordinates; `stg_geolocation` keeps both (its GROUP BY over all five
columns removes only fully identical rows), and the coords join then
matches a line item whose customer zip is 10 to both of them — two joined
rows, not a single representative coordinate per endpoint. -/
theorem geo_duplicate_key_counterexample :
    stgGeolocation [⟨10, 0, 0, 1, 1⟩, ⟨10, 0, 0, 2, 2⟩] =
      [⟨10, 0, 0, 1, 1⟩, ⟨10, 0, 0, 2, 2⟩] ∧
    (coordsRows (some 10) (some 99)
      (stgGeolocation [⟨10, 0, 0, 1, 1⟩, ⟨10, 0, 0, 2, 2⟩])).length = 2 ∧
    ¬ (coordsRows (some 10) (some 99)
      (stgGeolocation [⟨10, 0, 0, 1, 1⟩, ⟨10, 0, 0, 2, 2⟩])).length ≤ 1 := by
  refine ⟨?_, ?_, ?_⟩ <;> decide

/-- C10 amended: `stg_geolocation` deduplicates only whole rows (its output
is duplicate-free and holds exactly the distinct raw rows), and the coords
join gives one NULL row for a NULL or unmatched key but one row per matching
geo row otherwise — `k ≥ 2` distinct coordinate rows for one zip key yield
`k` joined rows, not one. -/
theorem stg_geolocation_join (raw geos : List GeoRow) (z : ℕ) :
    (stgGeolocation raw).Nodup ∧
    (∀ g : GeoRow, g ∈ stgGeolocation raw ↔ g ∈ raw) ∧
    joinGeo none geos = [none] ∧
    (geos.filter (fun g => g.zip == z) = [] →
      joinGeo (some z) geos = [none]) ∧
    (geos.filter (fun g => g.zip == z) ≠ [] →
      (joinGeo (some z) geos).length =
        (geos.filter (fun g => g.zip == z)).length) := by
  refine ⟨List.nodup_dedup raw, fun g => List.mem_dedup, rfl, ?_, ?_⟩
  · intro h
    simp [joinGeo, h]
  · intro h
    simp [joinGeo, h]

/-- Witness for the amended C10 statement: the zip-10 key with two distinct
coordinate rows joins to exactly two rows. -/
theorem stg_geolocation_join_witness :
    (joinGeo (some 10) [⟨10, 0, 0, 1, 1⟩, ⟨10, 0, 0, 2, 2⟩]).length =
      (([⟨10, 0, 0, 1, 1⟩, ⟨10, 0, 0, 2, 2⟩] : List GeoRow).filter
        (fun g => g.zip == 10)).length :=
  (stg_geolocation_join [] [⟨10, 0, 0, 1, 1⟩, ⟨10, 0, 0, 2, 2⟩] 10).2.2.2.2
    (by decide)
